import Mathlib

/-!
Verification of the obesity-visualization pipeline (`viz.py`).

The pipeline reads three cleaned tables, aggregates repeated observations by
(year, category) with a sample-size-weighted mean, and builds three Altair
chart specifications.  We embed the data transformations shallowly:

* numeric table cells are modelled as exact rationals (`ℚ`); a cell that is
  missing, or that `pd.to_numeric(..., errors="coerce")` turns into `NaN`,
  is modelled as `none : Option ℚ`;
* a dataframe is a list of rows;
* `groupby(...).apply(weighted_mean)` is modelled by listing the distinct
  group keys and pairing each with `weighted_mean` of its group.  (pandas
  sorts the group keys; the claims below are insensitive to row order, so we
  use first-occurrence order of the deduplicated keys.)
-/

namespace ObesityViz

/-- One observation row of the age table (`clean_heatmap.csv`) or the income
table (`clean_income.csv`): columns `YearStart`, `Stratification1`,
`Data_Value`, `Sample_Size`.  `dataValue` and `sampleSize` are `none` when
the cell is missing or non-numeric (the state after
`pd.to_numeric(df["Sample_Size"], errors="coerce")`). -/
structure Row where
  yearStart : Int
  stratification1 : String
  dataValue : Option ℚ
  sampleSize : Option ℚ
deriving Repr, DecidableEq

/-- A fully numeric observation used for aggregation: `(year, category)` key
together with the value and its sample-size weight. -/
structure Obs where
  year : Int
  cat : String
  value : ℚ
  weight : ℚ
deriving Repr, DecidableEq

/-- Models `df.dropna(subset=["Sample_Size", "Data_Value"])` after the numeric
coercion: keep exactly the rows whose value and sample size are present. -/
def validRows (rows : List Row) : List Obs :=
  rows.filterMap fun r =>
    match r.dataValue, r.sampleSize with
    | some x, some w => some ⟨r.yearStart, r.stratification1, x, w⟩
    | _, _ => none

/-- The helper `weighted_mean(group)` from `viz.py`: `(x * w).sum() / w.sum()` where
`x` is the `Data_Value` column and `w` the `Sample_Size` column of the
group.  A group is the list of its `(value, weight)` pairs. -/
def weighted_mean (group : List (ℚ × ℚ)) : ℚ :=
  (group.map fun p => p.1 * p.2).sum / (group.map fun p => p.2).sum

/-- The `(value, weight)` pairs of the rows of group `k` inside `obs`:
the rows selected by `groupby(["YearStart", "Stratification1"])` for key
`k`. -/
def groupOf (obs : List Obs) (k : Int × String) : List (ℚ × ℚ) :=
  (obs.filter fun o => o.year = k.1 ∧ o.cat = k.2).map fun o => (o.value, o.weight)

/-- The distinct `(YearStart, Stratification1)` keys of the table. -/
def groupKeys (obs : List Obs) : List (Int × String) :=
  (obs.map fun o => (o.year, o.cat)).dedup

/-- Models `df.groupby(["YearStart", "Stratification1"]).apply(weighted_mean)`,
reset to a table keyed by `(year, category)`. -/
def aggregate (obs : List Obs) : List ((Int × String) × ℚ) :=
  (groupKeys obs).map fun k => (k, weighted_mean (groupOf obs k))

/-- First-match association-list lookup; models selecting the (unique) row
of a keyed table, and `dict.get` / `Series.map` on the state-id dictionary. -/
def lookupKey {κ β : Type} [DecidableEq κ] (k : κ) : List (κ × β) → Option β
  | [] => none
  | p :: ps => if p.1 = k then some p.2 else lookupKey k ps

/-- The aggregated table built by `make_age_heatmap`: numeric-coerce and
drop invalid rows, then the weighted aggregation by `(year, age group)`. -/
def ageHeatmapData (rows : List Row) : List ((Int × String) × ℚ) :=
  aggregate (validRows rows)

/-- The canonical ordering `age_order` of `make_age_heatmap`. -/
def age_order : List String :=
  ["18 - 24", "25 - 34", "35 - 44", "45 - 54", "55 - 64", "65 or older"]

/-- The table `df_inc_agg` of `make_income_trend` before the baseline join: identical
preprocessing and aggregation, over the income table. -/
def incomeAgg (rows : List Row) : List ((Int × String) × ℚ) :=
  aggregate (validRows rows)

/-- The table `base_2011`: the rows of the aggregated income table with
`YearStart == 2011`, keeping `(Stratification1, Data_Value)` with the value
renamed to `Base_2011`. -/
def base_2011 (agg : List ((Int × String) × ℚ)) : List (String × ℚ) :=
  (agg.filter fun p => p.1.1 = 2011).map fun p => (p.1.2, p.2)

/-- One row of the joined income table: aggregated rate together with the
2011 baseline and the growth, both missing when the category has no 2011
row. -/
structure IncomeRow where
  year : Int
  cat : String
  dataValue : ℚ
  base2011 : Option ℚ
  growth : Option ℚ
deriving Repr, DecidableEq

/-- Models `pd.merge(df_inc_agg, base_2011, on="Stratification1", how="left")`
followed by `Growth = Data_Value - Base_2011`.  The right table has at most
one row per category (group keys are distinct), so the left join attaches to
each aggregated row the unique matching baseline, or `none`; the subtraction
propagates the missing baseline into a missing growth. -/
def incomeGrowthTable (rows : List Row) : List IncomeRow :=
  (incomeAgg rows).map fun p =>
    let b := lookupKey p.1.2 (base_2011 (incomeAgg rows))
    ⟨p.1.1, p.1.2, p.2, b, b.map fun v => p.2 - v⟩

/-- One row of the map table (`clean_map.csv`): columns `YearStart`,
`LocationAbbr`, `LocationDesc`, `Data_Value`. -/
structure MapRow where
  yearStart : Int
  locationAbbr : String
  locationDesc : String
  dataValue : ℚ
deriving Repr, DecidableEq

/-- The static `state_id_map` dictionary of `make_trend_and_map`, mapping
two-letter state abbreviations to the numeric identifiers of the `us_10m`
boundary topology. -/
def state_id_map : List (String × Nat) :=
  [("AL", 1), ("AK", 2), ("AZ", 4), ("AR", 5), ("CA", 6), ("CO", 8),
   ("CT", 9), ("DE", 10), ("FL", 12), ("GA", 13), ("HI", 15), ("ID", 16),
   ("IL", 17), ("IN", 18), ("IA", 19), ("KS", 20), ("KY", 21), ("LA", 22),
   ("ME", 23), ("MD", 24), ("MA", 25), ("MI", 26), ("MN", 27), ("MS", 28),
   ("MO", 29), ("MT", 30), ("NE", 31), ("NV", 32), ("NH", 33), ("NJ", 34),
   ("NM", 35), ("NY", 36), ("NC", 37), ("ND", 38), ("OH", 39), ("OK", 40),
   ("OR", 41), ("PA", 42), ("RI", 44), ("SC", 45), ("SD", 46), ("TN", 47),
   ("TX", 48), ("UT", 49), ("VT", 50), ("VA", 51), ("WA", 53), ("WV", 54),
   ("WI", 55), ("WY", 56), ("DC", 11)]

/-- The `hover_year` selection state (`alt.selection_single` on `YearStart`
with `empty="none"`): either no year selected, or a selected year. -/
inductive HoverYear where
  | empty : HoverYear
  | year (y : Int) : HoverYear
deriving Repr, DecidableEq

/-- Whether a row passes `transform_filter(hover_year)`.  With
`empty="none"` an empty selection matches no row at all; a selected year
matches the rows of that year. -/
def selMatches : HoverYear → MapRow → Bool
  | .empty, _ => false
  | .year y, r => r.yearStart == y

/-- Models `df_map["id"] = df_map["LocationAbbr"].map(state_id_map)`: each row
paired with its numeric state id, `none` when the abbreviation has no entry
in the dictionary. -/
def withStateId (rows : List MapRow) : List (MapRow × Option Nat) :=
  rows.map fun r => (r, lookupKey r.locationAbbr state_id_map)

/-- Whether `transform_lookup` against the `us_10m` state topology finds a
geometry for the row: it does exactly when the id of the row is a valid state
identifier, i.e. when the abbreviation had an entry in `state_id_map`. -/
def geometryFound (p : MapRow × Option Nat) : Bool :=
  p.2.isSome

/-- The rows the bottom map chart renders for a given selection state: the
rows whose geometry lookup succeeded (a `mark_geoshape` without geometry
draws nothing) and that pass `transform_filter(hover_year)`. -/
def mapRendered (rows : List MapRow) (sel : HoverYear) : List MapRow :=
  (((withStateId rows).filter geometryFound).map fun p => p.1).filter
    (selMatches sel)

/-- The per-year value plotted by the top trend chart: the
`mean(Data_Value)` aggregate declared in the `y` encoding of
`make_trend_and_map`, i.e. the unweighted mean of `Data_Value` over the raw
rows of the year. -/
def trendMean (rows : List MapRow) (y : Int) : ℚ :=
  let vs := (rows.filter fun r => r.yearStart = y).map fun r => r.dataValue
  vs.sum / (vs.length : ℚ)

/-- End-to-end scenario 1 of the spec: two age-table rows for
`(2015, "18 - 24")` with values 28.0 and 32.0 and sample sizes 100 and
300. -/
def scenario1Rows : List Row :=
  [⟨2015, "18 - 24", some 28, some 100⟩,
   ⟨2015, "18 - 24", some 32, some 300⟩]

/-- End-to-end scenario 2 shaped income table: one category with a 2011
baseline row and a later row. -/
def income2011Rows : List Row :=
  [⟨2011, "Less than $15,000", some 30, some 100⟩,
   ⟨2015, "Less than $15,000", some (67 / 2), some 200⟩]

/-- An income table in which category "B" has no 2011 baseline row. -/
def c5Rows : List Row :=
  [⟨2011, "A", some 30, some 100⟩, ⟨2015, "B", some 33, some 100⟩]

/-- An age table containing a category outside the canonical six-band
list. -/
def unknownAgeRows : List Row :=
  [⟨2015, "Unknown", some 28, some 100⟩]

/-- A two-row map table for one year, with values 28 and 32. -/
def demoTrendRows : List MapRow :=
  [⟨2015, "AL", "Alabama", 28⟩, ⟨2015, "AK", "Alaska", 32⟩]

/-- A map table holding one known state row and one row with the unknown
abbreviation "ZZ" (end-to-end scenario 3). -/
def demoMapRows : List MapRow :=
  [⟨2015, "AL", "Alabama", 28⟩, ⟨2015, "ZZ", "Nowhere", 50⟩]

/-! Helper lemmas about lookups into keyed tables. -/

theorem lookupKey_map_self {κ β : Type} [DecidableEq κ] (f : κ → β) :
    ∀ (l : List κ) (k : κ), k ∈ l →
      lookupKey k (l.map fun x => (x, f x)) = some (f k)
  | [], k, h => absurd h (List.not_mem_nil k)
  | x :: xs, k, h => by
    by_cases hx : x = k
    · subst hx
      simp [lookupKey]
    · have hk : k ∈ xs := by
        rcases List.mem_cons.mp h with h1 | h1
        · exact absurd h1.symm hx
        · exact h1
      simpa [lookupKey, hx] using lookupKey_map_self f xs k hk

theorem lookupKey_eq_none {κ β : Type} [DecidableEq κ] (k : κ) :
    ∀ l : List (κ × β), (∀ p ∈ l, p.1 ≠ k) → lookupKey k l = none
  | [], _ => rfl
  | p :: ps, h => by
    have hp : p.1 ≠ k := h p (List.mem_cons_self p ps)
    simpa [lookupKey, hp] using
      lookupKey_eq_none k ps fun q hq => h q (List.mem_cons_of_mem p hq)

/-- Looking up a group key in the aggregated table yields the weighted mean
of that group. -/
theorem lookup_aggregate (obs : List Obs) (k : Int × String)
    (h : k ∈ groupKeys obs) :
    lookupKey k (aggregate obs) = some (weighted_mean (groupOf obs k)) :=
  lookupKey_map_self (fun k => weighted_mean (groupOf obs k)) (groupKeys obs) k h

/-- Looking up a category in a year-2011 slice of a keyed table: the slice
is keyed by category, and the value attached to category `c` is the value
of the `(2011, c)` row. -/
theorem lookup_year_slice (f : Int × String → ℚ) (c : String) :
    ∀ keys : List (Int × String), (2011, c) ∈ keys →
      lookupKey c
          (((keys.map fun k => (k, f k)).filter fun p => p.1.1 = 2011).map
            fun p => (p.1.2, p.2)) =
        some (f (2011, c))
  | [], h => absurd h (List.not_mem_nil _)
  | k :: keys, h => by
    by_cases hk : k = (2011, c)
    · subst hk
      simp [lookupKey]
    · have hmem : (2011, c) ∈ keys := by
        rcases List.mem_cons.mp h with h1 | h1
        · exact absurd h1.symm hk
        · exact h1
      by_cases h1 : k.1 = 2011
      · have h2 : k.2 ≠ c := by
          intro h2
          exact hk (Prod.ext h1 h2)
        simpa [List.filter_cons, h1, lookupKey, h2] using
          lookup_year_slice f c keys hmem
      · simpa [List.filter_cons, h1] using lookup_year_slice f c keys hmem

/-- The baseline attached to category `c` by the left join is the year-2011
aggregated value of `c`, whenever `(2011, c)` is one of the group keys. -/
theorem lookup_base_2011 (obs : List Obs) (c : String)
    (h : (2011, c) ∈ groupKeys obs) :
    lookupKey c (base_2011 (aggregate obs)) =
      some (weighted_mean (groupOf obs (2011, c))) :=
  lookup_year_slice (fun k => weighted_mean (groupOf obs k)) c (groupKeys obs) h

/-! Helper lemmas about sums of values and weights. -/

theorem sum_weights_pos (g : List (ℚ × ℚ)) (hw : ∀ p ∈ g, 0 ≤ p.2)
    (hpos : ∃ p ∈ g, 0 < p.2) : 0 < (g.map fun p => p.2).sum := by
  induction g with
  | nil => simp at hpos
  | cons q g ih =>
    have hq : 0 ≤ q.2 := hw q (List.mem_cons_self q g)
    have hrest : 0 ≤ (g.map fun p => p.2).sum := by
      refine List.sum_nonneg ?_
      intro x hx
      rcases List.mem_map.mp hx with ⟨p, hp, rfl⟩
      exact hw p (List.mem_cons_of_mem q hp)
    rcases hpos with ⟨p, hp, hppos⟩
    rcases List.mem_cons.mp hp with rfl | hp
    · simpa using add_pos_of_pos_of_nonneg hppos hrest
    · have := ih (fun p hp => hw p (List.mem_cons_of_mem q hp)) ⟨p, hp, hppos⟩
      simpa using add_pos_of_nonneg_of_pos hq this

theorem mul_sum_le_sum_prod (g : List (ℚ × ℚ)) (m : ℚ)
    (hm : ∀ p ∈ g, m ≤ p.1) (hw : ∀ p ∈ g, 0 ≤ p.2) :
    m * (g.map fun p => p.2).sum ≤ (g.map fun p => p.1 * p.2).sum := by
  induction g with
  | nil => simp
  | cons q g ih =>
    have h1 : m * q.2 ≤ q.1 * q.2 :=
      mul_le_mul_of_nonneg_right (hm q (List.mem_cons_self q g))
        (hw q (List.mem_cons_self q g))
    have h2 := ih (fun p hp => hm p (List.mem_cons_of_mem q hp))
      (fun p hp => hw p (List.mem_cons_of_mem q hp))
    simp only [List.map_cons, List.sum_cons, mul_add]
    exact add_le_add h1 h2

theorem sum_prod_le_mul_sum (g : List (ℚ × ℚ)) (M : ℚ)
    (hM : ∀ p ∈ g, p.1 ≤ M) (hw : ∀ p ∈ g, 0 ≤ p.2) :
    (g.map fun p => p.1 * p.2).sum ≤ M * (g.map fun p => p.2).sum := by
  induction g with
  | nil => simp
  | cons q g ih =>
    have h1 : q.1 * q.2 ≤ M * q.2 :=
      mul_le_mul_of_nonneg_right (hM q (List.mem_cons_self q g))
        (hw q (List.mem_cons_self q g))
    have h2 := ih (fun p hp => hM p (List.mem_cons_of_mem q hp))
      (fun p hp => hw p (List.mem_cons_of_mem q hp))
    simp only [List.map_cons, List.sum_cons, mul_add]
    exact add_le_add h1 h2

theorem sum_const_value (g : List (ℚ × ℚ)) (v : ℚ) (hv : ∀ p ∈ g, p.1 = v) :
    (g.map fun p => p.1 * p.2).sum = v * (g.map fun p => p.2).sum := by
  induction g with
  | nil => simp
  | cons q g ih =>
    have hq : q.1 = v := hv q (List.mem_cons_self q g)
    have h2 := ih fun p hp => hv p (List.mem_cons_of_mem q hp)
    simp only [List.map_cons, List.sum_cons, mul_add, hq, h2]

/-! Minimum and maximum of a list of values, used to state the range bound
on `weighted_mean`. -/

/-- The minimum of a list of rationals (0 for the empty list, which never
arises in the claims below). -/
def listMin : List ℚ → ℚ
  | [] => 0
  | x :: xs => xs.foldl min x

/-- The maximum of a list of rationals (0 for the empty list). -/
def listMax : List ℚ → ℚ
  | [] => 0
  | x :: xs => xs.foldl max x

theorem foldl_min_le_init (xs : List ℚ) : ∀ a : ℚ, xs.foldl min a ≤ a := by
  induction xs with
  | nil => intro a; simp
  | cons x xs ih =>
    intro a
    calc (x :: xs).foldl min a = xs.foldl min (min a x) := rfl
    _ ≤ min a x := ih (min a x)
    _ ≤ a := min_le_left a x

theorem foldl_min_le_mem (xs : List ℚ) :
    ∀ (a y : ℚ), y ∈ xs → xs.foldl min a ≤ y := by
  induction xs with
  | nil => intro a y h; simp at h
  | cons x xs ih =>
    intro a y h
    rcases List.mem_cons.mp h with rfl | h
    · calc (y :: xs).foldl min a = xs.foldl min (min a y) := rfl
      _ ≤ min a y := foldl_min_le_init xs (min a y)
      _ ≤ y := min_le_right a y
    · exact ih (min a x) y h

theorem listMin_le_of_mem (l : List ℚ) (y : ℚ) (h : y ∈ l) : listMin l ≤ y := by
  match l with
  | [] => simp at h
  | x :: xs =>
    rcases List.mem_cons.mp h with rfl | h
    · exact foldl_min_le_init xs y
    · exact foldl_min_le_mem xs x y h

theorem init_le_foldl_max (xs : List ℚ) : ∀ a : ℚ, a ≤ xs.foldl max a := by
  induction xs with
  | nil => intro a; simp
  | cons x xs ih =>
    intro a
    calc a ≤ max a x := le_max_left a x
    _ ≤ xs.foldl max (max a x) := ih (max a x)
    _ = (x :: xs).foldl max a := rfl

theorem mem_le_foldl_max (xs : List ℚ) :
    ∀ (a y : ℚ), y ∈ xs → y ≤ xs.foldl max a := by
  induction xs with
  | nil => intro a y h; simp at h
  | cons x xs ih =>
    intro a y h
    rcases List.mem_cons.mp h with rfl | h
    · calc y ≤ max a y := le_max_right a y
      _ ≤ xs.foldl max (max a y) := init_le_foldl_max xs (max a y)
      _ = (y :: xs).foldl max a := rfl
    · exact ih (max a x) y h

theorem le_listMax_of_mem (l : List ℚ) (y : ℚ) (h : y ∈ l) : y ≤ listMax l := by
  match l with
  | [] => simp at h
  | x :: xs =>
    rcases List.mem_cons.mp h with rfl | h
    · exact init_le_foldl_max xs y
    · exact mem_le_foldl_max xs x y h

/-- Every row of the rendered map has a valid entry in the state-id
dictionary. -/
theorem mem_mapRendered_isSome (rows : List MapRow) (sel : HoverYear)
    (r : MapRow) (h : r ∈ mapRendered rows sel) :
    (lookupKey r.locationAbbr state_id_map).isSome = true := by
  have h1 := List.mem_of_mem_filter h
  rcases List.mem_map.mp h1 with ⟨p, hp, rfl⟩
  have h2 := List.of_mem_filter hp
  rcases List.mem_map.mp (List.mem_of_mem_filter hp) with ⟨r, hr, rfl⟩
  simpa [geometryFound] using h2

/-- C1: for every `(year, category)` group key of the age table, the
aggregated value is `sum(value_i * weight_i) / sum(weight_i)`; and on the
scenario table containing the rows `(2015, "18 - 24", 28.0, 100)` and
`(2015, "18 - 24", 32.0, 300)` the aggregate is exactly `31.0` for that
key. -/
theorem C1_weighted_mean_formula :
    (∀ (rows : List Row) (k : Int × String),
      k ∈ groupKeys (validRows rows) →
      lookupKey k (ageHeatmapData rows) =
        some (((groupOf (validRows rows) k).map fun p => p.1 * p.2).sum /
              ((groupOf (validRows rows) k).map fun p => p.2).sum))
    ∧ ageHeatmapData scenario1Rows = [((2015, "18 - 24"), 31)] := by
  constructor
  · intro rows k h
    exact lookup_aggregate (validRows rows) k h
  · norm_num [ageHeatmapData, aggregate, groupKeys, groupOf, validRows,
      weighted_mean, scenario1Rows, List.filterMap_cons, List.filter_cons,
      List.dedup_cons_of_mem, List.dedup_cons_of_not_mem, Function.comp]

/-- Witness for C1 at the scenario table and the key `(2015, "18 - 24")`. -/
theorem C1_weighted_mean_formula_witness :
    ((2015, "18 - 24") ∈ groupKeys (validRows scenario1Rows)) ∧
    lookupKey ((2015 : Int), "18 - 24") (ageHeatmapData scenario1Rows) =
      some ((((groupOf (validRows scenario1Rows) (2015, "18 - 24")).map
                fun p => p.1 * p.2).sum) /
            (((groupOf (validRows scenario1Rows) (2015, "18 - 24")).map
                fun p => p.2).sum)) :=
  ⟨by decide,
   C1_weighted_mean_formula.1 scenario1Rows (2015, "18 - 24") (by decide)⟩

/-- C6 counterexample: the group `[(5, 0)]` is non-empty and every value in
it equals 5, yet `weighted_mean` does not return 5 (with a zero total
weight the quotient is not the common value; the source code divides
`0.0` by `0.0` there, yielding `NaN`). -/
theorem C6_counterexample :
    ([((5 : ℚ), (0 : ℚ))] ≠ ([] : List (ℚ × ℚ))) ∧
    (∀ p ∈ [((5 : ℚ), (0 : ℚ))], p.1 = 5) ∧
    weighted_mean [((5 : ℚ), (0 : ℚ))] ≠ 5 := by
  refine ⟨by simp, by simp, ?_⟩
  norm_num [weighted_mean]

/-- C6 amended: for every non-empty group in which every row has the same
value `v` and whose total weight is nonzero, `weighted_mean` returns
exactly `v`. -/
theorem C6_constant_value (g : List (ℚ × ℚ)) (v : ℚ) (hne : g ≠ [])
    (hval : ∀ p ∈ g, p.1 = v) (hw : (g.map fun p => p.2).sum ≠ 0) :
    weighted_mean g = v := by
  unfold weighted_mean
  rw [sum_const_value g v hval]
  exact mul_div_cancel_right₀ v hw

/-- Witness for C6 on the group `[(7, 2), (7, 3)]`. -/
theorem C6_constant_value_witness :
    (([((7 : ℚ), (2 : ℚ)), (7, 3)] : List (ℚ × ℚ)) ≠ []) ∧
    (∀ p ∈ ([((7 : ℚ), (2 : ℚ)), (7, 3)] : List (ℚ × ℚ)), p.1 = 7) ∧
    ((([((7 : ℚ), (2 : ℚ)), (7, 3)] : List (ℚ × ℚ)).map fun p => p.2).sum ≠ 0) ∧
    weighted_mean [((7 : ℚ), (2 : ℚ)), (7, 3)] = 7 :=
  ⟨by simp, by simp, by norm_num,
   C6_constant_value _ 7 (by simp) (by simp) (by norm_num)⟩

/-- C7: for every group with non-negative weights and at least one positive
weight, `weighted_mean` lies within the closed interval bounded by the
minimum and the maximum of the values of the group. -/
theorem C7_weighted_mean_in_range (g : List (ℚ × ℚ))
    (hw : ∀ p ∈ g, 0 ≤ p.2) (hpos : ∃ p ∈ g, 0 < p.2) :
    listMin (g.map fun p => p.1) ≤ weighted_mean g ∧
    weighted_mean g ≤ listMax (g.map fun p => p.1) := by
  have hS : 0 < (g.map fun p => p.2).sum := sum_weights_pos g hw hpos
  have hm : ∀ p ∈ g, listMin (g.map fun p => p.1) ≤ p.1 := fun p hp =>
    listMin_le_of_mem _ p.1 (List.mem_map_of_mem _ hp)
  have hM : ∀ p ∈ g, p.1 ≤ listMax (g.map fun p => p.1) := fun p hp =>
    le_listMax_of_mem _ p.1 (List.mem_map_of_mem _ hp)
  constructor
  · rw [weighted_mean, le_div_iff₀ hS]
    exact mul_sum_le_sum_prod g _ hm hw
  · rw [weighted_mean, div_le_iff₀ hS]
    exact sum_prod_le_mul_sum g _ hM hw

/-- Witness for C7 on the group `[(28, 100), (32, 300)]`. -/
theorem C7_weighted_mean_in_range_witness :
    (∀ p ∈ ([((28 : ℚ), (100 : ℚ)), (32, 300)] : List (ℚ × ℚ)), 0 ≤ p.2) ∧
    (∃ p ∈ ([((28 : ℚ), (100 : ℚ)), (32, 300)] : List (ℚ × ℚ)), 0 < p.2) ∧
    (listMin (([((28 : ℚ), (100 : ℚ)), (32, 300)] : List (ℚ × ℚ)).map
        fun p => p.1) ≤ weighted_mean [((28 : ℚ), (100 : ℚ)), (32, 300)] ∧
      weighted_mean [((28 : ℚ), (100 : ℚ)), (32, 300)] ≤
        listMax (([((28 : ℚ), (100 : ℚ)), (32, 300)] : List (ℚ × ℚ)).map
          fun p => p.1)) :=
  ⟨by norm_num, ⟨(28, 100), by norm_num, by norm_num⟩,
   C7_weighted_mean_in_range _ (by norm_num) ⟨(28, 100), by norm_num, by norm_num⟩⟩

/-- C10: multiplying every weight of a group by one positive constant `c`
leaves `weighted_mean` unchanged — the result depends only on relative
weights. -/
theorem C10_weight_scale_invariance (g : List (ℚ × ℚ)) (c : ℚ) (hc : 0 < c)
    (hpos : ∃ p ∈ g, 0 < p.2) :
    weighted_mean (g.map fun p => (p.1, c * p.2)) = weighted_mean g := by
  have h1 : ((g.map fun p => (p.1, c * p.2)).map fun p => p.1 * p.2) =
      g.map fun p => c * (p.1 * p.2) := by
    rw [List.map_map]
    refine List.map_congr_left fun p _ => ?_
    simp [Function.comp]
    ring
  have h2 : ((g.map fun p => (p.1, c * p.2)).map fun p => p.2) =
      g.map fun p => c * p.2 := by
    rw [List.map_map]
    rfl
  rw [weighted_mean, weighted_mean, h1, h2,
    List.sum_map_mul_left g (fun p => p.1 * p.2) c,
    List.sum_map_mul_left g (fun p => p.2) c,
    mul_div_mul_left _ _ (ne_of_gt hc)]

/-- Witness for C10 on the group `[(28, 100), (32, 300)]` scaled by 2. -/
theorem C10_weight_scale_invariance_witness :
    (0 < (2 : ℚ)) ∧
    (∃ p ∈ ([((28 : ℚ), (100 : ℚ)), (32, 300)] : List (ℚ × ℚ)), 0 < p.2) ∧
    weighted_mean (([((28 : ℚ), (100 : ℚ)), (32, 300)] : List (ℚ × ℚ)).map
        fun p => (p.1, 2 * p.2)) =
      weighted_mean [((28 : ℚ), (100 : ℚ)), (32, 300)] :=
  ⟨by norm_num, ⟨(28, 100), by norm_num, by norm_num⟩,
   C10_weight_scale_invariance _ 2 (by norm_num)
     ⟨(28, 100), by norm_num, by norm_num⟩⟩

/-- C4: for every category that has a 2011 row among the aggregated group
keys, the joined income table contains the 2011 row of that category with
growth exactly 0. -/
theorem C4_baseline_growth_zero (rows : List Row) (c : String)
    (h : (2011, c) ∈ groupKeys (validRows rows)) :
    ∃ row ∈ incomeGrowthTable rows,
      row.year = 2011 ∧ row.cat = c ∧ row.growth = some 0 := by
  have hb := lookup_base_2011 (validRows rows) c h
  refine ⟨_,
    List.mem_map_of_mem _
      (List.mem_map_of_mem
        (fun k => (k, weighted_mean (groupOf (validRows rows) k))) h),
    rfl, rfl, ?_⟩
  show ((lookupKey c (base_2011 (aggregate (validRows rows)))).map
      fun v => weighted_mean (groupOf (validRows rows) (2011, c)) - v) = some 0
  rw [hb]
  simp

/-- Witness for C4 on a concrete income table with a 2011 baseline row. -/
theorem C4_baseline_growth_zero_witness :
    ((2011, "Less than $15,000") ∈ groupKeys (validRows income2011Rows)) ∧
    ∃ row ∈ incomeGrowthTable income2011Rows,
      row.year = 2011 ∧ row.cat = "Less than $15,000" ∧ row.growth = some 0 :=
  ⟨by decide, C4_baseline_growth_zero income2011Rows _ (by decide)⟩

/-- C5: the baseline join is a left join — the joined table keeps exactly
one row per aggregated row (every aggregated row is retained with its key
and value), and a row whose category has no year-2011 aggregated row gets a
missing baseline and a missing growth, not zero. -/
theorem C5_left_join_semantics (rows : List Row) (p : (Int × String) × ℚ)
    (row : IncomeRow) (hp : p ∈ incomeAgg rows)
    (hrow : row ∈ incomeGrowthTable rows)
    (hc : ∀ q ∈ incomeAgg rows, q.1.1 = 2011 → q.1.2 ≠ row.cat) :
    (incomeGrowthTable rows).length = (incomeAgg rows).length ∧
    (∃ row2 ∈ incomeGrowthTable rows,
      row2.year = p.1.1 ∧ row2.cat = p.1.2 ∧ row2.dataValue = p.2) ∧
    row.base2011 = none ∧ row.growth = none := by
  refine ⟨by simp [incomeGrowthTable],
    ⟨_, List.mem_map_of_mem _ hp, rfl, rfl, rfl⟩, ?_⟩
  rcases List.mem_map.mp hrow with ⟨q, hq, rfl⟩
  have hnone : lookupKey q.1.2 (base_2011 (incomeAgg rows)) = none := by
    apply lookupKey_eq_none
    intro e he
    rcases List.mem_map.mp he with ⟨p2, hp2, rfl⟩
    have h1 := List.of_mem_filter hp2
    have h2 := List.mem_of_mem_filter hp2
    exact hc p2 h2 (by simpa using h1)
  constructor
  · show lookupKey q.1.2 (base_2011 (incomeAgg rows)) = none
    exact hnone
  · show (lookupKey q.1.2 (base_2011 (incomeAgg rows))).map
        (fun v => q.2 - v) = none
    rw [hnone]
    rfl

/-- Witness for C5 on a table where category "B" has no 2011 baseline. -/
theorem C5_left_join_semantics_witness :
    ((((2015 : Int), "B"), (33 : ℚ)) ∈ incomeAgg c5Rows) ∧
    ((⟨2015, "B", 33, none, none⟩ : IncomeRow) ∈ incomeGrowthTable c5Rows) ∧
    (∀ q ∈ incomeAgg c5Rows, q.1.1 = 2011 → q.1.2 ≠ "B") ∧
    ((incomeGrowthTable c5Rows).length = (incomeAgg c5Rows).length ∧
      (∃ row2 ∈ incomeGrowthTable c5Rows,
        row2.year = 2015 ∧ row2.cat = "B" ∧ row2.dataValue = 33) ∧
      (⟨2015, "B", 33, none, none⟩ : IncomeRow).base2011 = none ∧
      (⟨2015, "B", 33, none, none⟩ : IncomeRow).growth = none) := by
  have hagg : incomeAgg c5Rows = [((2011, "A"), 30), ((2015, "B"), 33)] := by
    norm_num [incomeAgg, aggregate, groupKeys, groupOf, validRows, weighted_mean,
      c5Rows, List.filterMap_cons, List.filter_cons, List.dedup_cons_of_mem,
      List.dedup_cons_of_not_mem, Function.comp]
  have hp : (((2015 : Int), "B"), (33 : ℚ)) ∈ incomeAgg c5Rows := by
    rw [hagg]
    norm_num
  have hrow : (⟨2015, "B", 33, none, none⟩ : IncomeRow) ∈
      incomeGrowthTable c5Rows := by
    norm_num [incomeGrowthTable, incomeAgg, base_2011, aggregate, groupKeys,
      groupOf, validRows, weighted_mean, lookupKey, c5Rows, List.filterMap_cons,
      List.filter_cons, List.dedup_cons_of_mem, List.dedup_cons_of_not_mem,
      Function.comp]
    decide
  have hc : ∀ q ∈ incomeAgg c5Rows, q.1.1 = 2011 → q.1.2 ≠ "B" := by
    rw [hagg]
    intro q hq
    rcases List.mem_cons.mp hq with rfl | hq
    · intro _ h
      exact absurd h (by decide)
    · rcases List.mem_cons.mp hq with rfl | hq
      · intro h
        exact absurd h (by decide)
      · simp at hq
  exact ⟨hp, hrow, hc, C5_left_join_semantics c5Rows _ _ hp hrow hc⟩

/-- C2: with an empty `hovered_year` selection the map renders no row at
all; with the selection set to a year present in the data, a row is
rendered exactly when it belongs to the table, is of that year, and its
abbreviation has a valid entry in the static state-id mapping. -/
theorem C2_hover_year_map (rows : List MapRow) (y : Int) (r : MapRow)
    (hy : y ∈ rows.map fun r => r.yearStart) :
    mapRendered rows .empty = [] ∧
    (r ∈ mapRendered rows (.year y) ↔
      r ∈ rows ∧ r.yearStart = y ∧
        (lookupKey r.locationAbbr state_id_map).isSome = true) := by
  constructor
  · simp [mapRendered, selMatches]
  · constructor
    · intro h
      have hsome := mem_mapRendered_isSome rows (.year y) r h
      have h1 := List.mem_of_mem_filter h
      have h2 := List.of_mem_filter h
      have hyear : r.yearStart = y := by simpa [selMatches] using h2
      rcases List.mem_map.mp h1 with ⟨p, hp, rfl⟩
      rcases List.mem_map.mp (List.mem_of_mem_filter hp) with ⟨s, hs, rfl⟩
      exact ⟨hs, hyear, hsome⟩
    · rintro ⟨hr, hyear, hsome⟩
      apply List.mem_filter.mpr
      refine ⟨?_, by simp [selMatches, hyear]⟩
      apply List.mem_map.mpr
      refine ⟨(r, lookupKey r.locationAbbr state_id_map), ?_, rfl⟩
      apply List.mem_filter.mpr
      exact ⟨List.mem_map_of_mem _ hr, by simpa [geometryFound] using hsome⟩

/-- Witness for C2 on a concrete map table, year 2015, and its "AL" row. -/
theorem C2_hover_year_map_witness :
    ((2015 : Int) ∈ demoMapRows.map fun r => r.yearStart) ∧
    (mapRendered demoMapRows .empty = [] ∧
      ((⟨2015, "AL", "Alabama", 28⟩ : MapRow) ∈
          mapRendered demoMapRows (.year 2015) ↔
        (⟨2015, "AL", "Alabama", 28⟩ : MapRow) ∈ demoMapRows ∧
          (⟨2015, "AL", "Alabama", 28⟩ : MapRow).yearStart = 2015 ∧
          (lookupKey (⟨2015, "AL", "Alabama", 28⟩ : MapRow).locationAbbr
              state_id_map).isSome = true)) :=
  ⟨by decide, C2_hover_year_map demoMapRows 2015 _ (by decide)⟩

/-- C9: a map-table row whose abbreviation has no entry in the static
state-id mapping is never rendered, for every selection state, and its
presence in the table leaves the rendered output exactly as it would be
without it. -/
theorem C9_unknown_region_dropped (rows1 rows2 : List MapRow) (bad : MapRow)
    (sel : HoverYear) (hbad : lookupKey bad.locationAbbr state_id_map = none) :
    bad ∉ mapRendered (rows1 ++ bad :: rows2) sel ∧
    mapRendered (rows1 ++ bad :: rows2) sel = mapRendered (rows1 ++ rows2) sel := by
  constructor
  · intro h
    have hsome := mem_mapRendered_isSome _ sel bad h
    rw [hbad] at hsome
    simp at hsome
  · simp [mapRendered, withStateId, geometryFound, hbad, List.filter_append,
      List.map_append, List.filter_cons]

/-- Witness for C9 on end-to-end scenario 3: the "ZZ" row. -/
theorem C9_unknown_region_dropped_witness :
    lookupKey (⟨2015, "ZZ", "Nowhere", 50⟩ : MapRow).locationAbbr
        state_id_map = none ∧
    ((⟨2015, "ZZ", "Nowhere", 50⟩ : MapRow) ∉
        mapRendered ([⟨2015, "AL", "Alabama", 28⟩] ++
          (⟨2015, "ZZ", "Nowhere", 50⟩ : MapRow) :: []) (.year 2015) ∧
      mapRendered ([⟨2015, "AL", "Alabama", 28⟩] ++
          (⟨2015, "ZZ", "Nowhere", 50⟩ : MapRow) :: []) (.year 2015) =
        mapRendered ([⟨2015, "AL", "Alabama", 28⟩] ++ []) (.year 2015)) :=
  ⟨by decide,
   C9_unknown_region_dropped [⟨2015, "AL", "Alabama", 28⟩] []
     ⟨2015, "ZZ", "Nowhere", 50⟩ (.year 2015) (by decide)⟩

/-- C3: the Trend+Map builder aggregates the per-year trend value as the
unweighted mean of `Data_Value` over the raw rows of the year, while the
age-heatmap and income builders aggregate through the sample-size-weighted
`weighted_mean`; the two aggregations genuinely differ (on values 28 and 32
with sample sizes 100 and 300 the unweighted mean is 30, the weighted mean
31). -/
theorem C3_trend_unweighted_contrast :
    (∀ (rows : List MapRow) (y : Int),
      trendMean rows y =
        ((rows.filter fun r => r.yearStart = y).map fun r => r.dataValue).sum /
          (((rows.filter fun r => r.yearStart = y).map
              fun r => r.dataValue).length : ℚ))
    ∧ (∀ (rows : List Row) (k : Int × String),
        k ∈ groupKeys (validRows rows) →
        lookupKey k (ageHeatmapData rows) =
            some (weighted_mean (groupOf (validRows rows) k)) ∧
          lookupKey k (incomeAgg rows) =
            some (weighted_mean (groupOf (validRows rows) k)))
    ∧ trendMean demoTrendRows 2015 ≠
        weighted_mean [((28 : ℚ), (100 : ℚ)), (32, 300)] := by
  refine ⟨fun rows y => rfl, fun rows k h =>
    ⟨lookup_aggregate (validRows rows) k h,
     lookup_aggregate (validRows rows) k h⟩, ?_⟩
  norm_num [trendMean, weighted_mean, demoTrendRows, List.filter_cons]

/-- Witness for C3 at the scenario table and its single group key. -/
theorem C3_trend_unweighted_contrast_witness :
    ((2015, "18 - 24") ∈ groupKeys (validRows scenario1Rows)) ∧
    lookupKey ((2015 : Int), "18 - 24") (incomeAgg scenario1Rows) =
      some (weighted_mean (groupOf (validRows scenario1Rows) (2015, "18 - 24"))) :=
  ⟨by decide,
   (C3_trend_unweighted_contrast.2.1 scenario1Rows (2015, "18 - 24")
     (by decide)).2⟩

/-- C8 counterexample: on an input table containing the age category
"Unknown", the aggregated heatmap output contains "Unknown", which is not
in the canonical six-band list — the builder neither rejects nor filters
unknown categories. -/
theorem C8_counterexample :
    "Unknown" ∈ (ageHeatmapData unknownAgeRows).map (fun p => p.1.2) ∧
    "Unknown" ∉ age_order := by
  constructor
  · decide
  · decide

/-- C8 amended: the set of age-group categories in the aggregated heatmap
output equals the set of categories of the valid input rows — categories
outside the canonical six-band list are passed through unfiltered (the
chart sort only orders the canonical six explicitly), not rejected. -/
theorem C8_output_categories (rows : List Row) (c : String) :
    c ∈ (ageHeatmapData rows).map (fun p => p.1.2) ↔
      c ∈ (validRows rows).map fun o => o.cat := by
  simp only [ageHeatmapData, aggregate, groupKeys, List.mem_map,
    List.mem_dedup]
  constructor
  · rintro ⟨p, ⟨k, ⟨o, ho, rfl⟩, rfl⟩, rfl⟩
    exact ⟨o, ho, rfl⟩
  · rintro ⟨o, ho, rfl⟩
    exact ⟨((o.year, o.cat),
        weighted_mean (groupOf (validRows rows) (o.year, o.cat))),
      ⟨(o.year, o.cat), ⟨o, ho, rfl⟩, rfl⟩, rfl⟩

end ObesityViz
